import Mathlib

/-!
Verification of the finance-tracker client (React/TypeScript) against its
specification.  The TypeScript source is shallowly embedded: JavaScript
string primitives are modelled over `List Char`, JavaScript numbers that
arise from `parseFloat` on decimal text are modelled as `Rat` (with `none`
standing for `NaN`), thrown exceptions become explicit result constructors,
and the stateful React handlers become pure state-transition functions.
Browser `localStorage` traffic is modelled as an explicit list of storage
operations emitted by each handler.
-/

namespace FinanceTracker

/-! ## JavaScript string primitives, modelled over `List Char` -/

/-- Model of JavaScript `String.prototype.split(sep)` for a one-character
separator: `"".split(sep)` is `[""]`, and separators at the ends produce
empty fields, exactly as in JavaScript. -/
def jsSplit (sep : Char) : List Char → List (List Char)
  | [] => [[]]
  | c :: cs =>
    if c = sep then [] :: jsSplit sep cs
    else
      match jsSplit sep cs with
      | f :: rest => (c :: f) :: rest
      | [] => [[c]]

/-- Model of JavaScript `String.prototype.trim()`: strip whitespace from both
ends.  (ASCII whitespace; the Unicode spaces JavaScript also strips do not
occur in the inputs of interest.) -/
def jsTrim (cs : List Char) : List Char :=
  ((cs.dropWhile Char.isWhitespace).reverse.dropWhile Char.isWhitespace).reverse

/-- Model of the JavaScript global-regex replace `.replace(/"/g, '')` used by
the parser: every double-quote character is removed, wherever it occurs. -/
def removeQuotes (cs : List Char) : List Char :=
  cs.filter (fun c => ¬ c = '"')

/-- Model of JavaScript `String.prototype.endsWith(suffix)`. -/
def jsEndsWith (s suffix : String) : Bool :=
  s.data.drop (s.data.length - suffix.data.length) == suffix.data

/-- ASCII case lowering, modelling `String.prototype.toLowerCase()` on the
ASCII header names compared by the parser. -/
def jsCharToLower (c : Char) : Char :=
  if 'A' ≤ c ∧ c ≤ 'Z' then Char.ofNat (c.toNat + 32) else c

/-- Lower-case a whole string (model of `toLowerCase`). -/
def jsToLower (s : String) : String :=
  ⟨s.data.map jsCharToLower⟩

/-- Decimal digits read most-significant first. -/
def digitsToNat (ds : List Char) : Nat :=
  ds.foldl (fun a c => a * 10 + (c.toNat - 48)) 0

/-- Model of the JavaScript global `parseFloat`: skip leading whitespace, read
an optional sign, a decimal mantissa (digits, optional point, digits) and an
optional well-formed exponent, ignore any trailing characters, and return
`none` (standing for `NaN`) when no digit was read.  Values are exact
rationals; the `Infinity` literals, which no claim involves, are not
modelled and fall into the `none` case. -/
def jsParseFloat (s : String) : Option Rat :=
  let cs := s.data.dropWhile Char.isWhitespace
  let sign : Rat := if cs.head? = some '-' then -1 else 1
  let cs := if cs.head? = some '-' ∨ cs.head? = some '+' then cs.tail else cs
  let intDigits := cs.takeWhile Char.isDigit
  let cs := cs.dropWhile Char.isDigit
  let fracDigits := if cs.head? = some '.' then cs.tail.takeWhile Char.isDigit else []
  let rest := if cs.head? = some '.' then cs.tail.dropWhile Char.isDigit else cs
  if intDigits.isEmpty ∧ fracDigits.isEmpty then none
  else
    let mant : Rat := (digitsToNat (intDigits ++ fracDigits) : Rat) / (10 : Rat) ^ fracDigits.length
    let expPart : Int :=
      match rest with
      | e :: r =>
        if e = 'e' ∨ e = 'E' then
          let esign : Int := if r.head? = some '-' then -1 else 1
          let r2 := if r.head? = some '-' ∨ r.head? = some '+' then r.tail else r
          let eDigits := r2.takeWhile Char.isDigit
          if eDigits.isEmpty then 0 else esign * digitsToNat eDigits
        else 0
      | [] => 0
    some (sign * mant * (10 : Rat) ^ expPart)

/-- JavaScript `parseFloat` applied to a possibly-`undefined` argument, as in
`parseFloat(cols[amountIdx])` when the index is out of bounds:
`parseFloat(undefined)` is `NaN`, i.e. `none`. -/
def jsParseFloatU : Option String → Option Rat
  | none => none
  | some s => jsParseFloat s

/-! ## CSV parser (`parseCSV` in `src/App.tsx`) -/

/-- One parsed purchase row.  `date` and `name` are `Option String` because
the TypeScript code reads `cols[dateIdx]` without a bounds check, so a short
row yields the JavaScript value `undefined`, modelled as `none`. -/
structure Transaction where
  date : Option String
  name : Option String
  amount : Rat
deriving Repr, DecidableEq

/-- Result of `parseCSV`: either the transaction array or a thrown `Error`
with its message. -/
inductive ParseResult where
  | ok (ts : List Transaction)
  | error (msg : String)
deriving Repr, DecidableEq

/-- Field cleanup applied to every header and data field:
`c.trim().replace(/"/g, '')`. -/
def cleanField (cs : List Char) : String :=
  ⟨removeQuotes (jsTrim cs)⟩

/-- `line.split(',').map(c => c.trim().replace(/"/g, ''))`. -/
def splitLine (line : List Char) : List String :=
  (jsSplit ',' line).map cleanField

/-- `headers.findIndex(h => h.toLowerCase() === target)`, with `none`
standing for the JavaScript result `-1`. -/
def headerIdx (headers : List String) (target : String) : Option Nat :=
  headers.findIdx? (fun h => (jsToLower h).data == target.data)

/-- The lines the parser works on: `text.trim().split('\n')`. -/
def linesOf (text : String) : List (List Char) :=
  jsSplit '\n' (jsTrim text.data)

/-- The cleaned header row of an input, `lines[0]` split and cleaned. -/
def headersOf (text : String) : List String :=
  splitLine ((linesOf text).headD [])

/-- The body of one loop iteration of `parseCSV`: clean and split the row,
parse the amount, and keep the row only when the amount is strictly
negative. -/
def txnOfRow (di ni ai : Nat) (line : List Char) : Option Transaction :=
  let cols := splitLine line
  match jsParseFloatU cols[ai]? with
  | some amt => if amt < 0 then some ⟨cols[di]?, cols[ni]?, amt⟩ else none
  | none => none

/-- The `for` loop of `parseCSV`, pushing each retained transaction onto the
end of the accumulator array exactly as `transactions.push(...)` does. -/
def parseLoop (di ni ai : Nat) : List (List Char) → List Transaction → List Transaction
  | [], acc => acc
  | line :: rest, acc =>
    let cols := splitLine line
    match jsParseFloatU cols[ai]? with
    | some amt =>
      if amt < 0 then parseLoop di ni ai rest (acc ++ [⟨cols[di]?, cols[ni]?, amt⟩])
      else parseLoop di ni ai rest acc
    | none => parseLoop di ni ai rest acc

/-- `parseCSV` from `src/App.tsx`: trim the input, split into lines, return
`[]` when fewer than two lines, resolve the three required column positions
by case-insensitive header lookup, throw when one is missing, then scan the
data rows. -/
def parseCSV (text : String) : ParseResult :=
  let lines := linesOf text
  if lines.length < 2 then .ok []
  else
    let headers := splitLine (lines.headD [])
    match headerIdx headers "date", headerIdx headers "name", headerIdx headers "amount" with
    | some di, some ni, some ai => .ok (parseLoop di ni ai (lines.drop 1) [])
    | _, _, _ => .error "CSV must have Date, Name, and Amount columns"

/-! ## Upload controller (component state of `src/App.tsx`)

The React component state is the record below; the `handleFile` and
`handleSubmit` event handlers become state-transition functions.  The
network is represented by the outcome the `fetch` promise settles with. -/

/-- A selected file: its name and its text content (`f.name`, `await f.text()`). -/
structure FileModel where
  name : String
  content : String
deriving Repr, DecidableEq

/-- One per-period summary in the import response. -/
structure PeriodSummary where
  year : Int
  month : Nat
  added : Nat
deriving Repr, DecidableEq

/-- Server response body of a successful import. -/
structure ImportResult where
  total_added : Nat
  results : List PeriodSummary
deriving Repr, DecidableEq

/-- The component state: `file`, `transactions`, `error`, `loading`, `result`.
(`dragActive` is pure presentation and is omitted.) -/
structure UploadState where
  file : Option FileModel
  transactions : List Transaction
  error : Option String
  loading : Bool
  result : Option ImportResult
deriving Repr, DecidableEq

/-- The initial component state. -/
def initialUploadState : UploadState :=
  ⟨none, [], none, false, none⟩

/-- `clear()` resets everything to the initial state. -/
def clear (_ : UploadState) : UploadState :=
  initialUploadState

/-- `handleFile` from `src/App.tsx`: a non-`.csv` name only sets the error
text and returns early; otherwise the error is cleared, the file stored, and
the content parsed, a thrown parser error becoming the error text with the
transaction list reset to empty. -/
def handleFile (s : UploadState) (f : FileModel) : UploadState :=
  if ¬ jsEndsWith f.name ".csv" then { s with error := some "Please upload a CSV file" }
  else
    match parseCSV f.content with
    | .ok ts => { s with error := none, file := some f, transactions := ts }
    | .error msg => { s with error := some msg, file := some f, transactions := [] }

/-- How the submission settles: a 2xx response with an `ImportResult` body, a
non-2xx response whose JSON body optionally carries a `detail` string (the
empty string is a possible value), or a rejected promise whose thrown value
has the given message when it is an `Error` object (`none` models a thrown
non-`Error`). -/
inductive SubmitOutcome where
  | success (r : ImportResult)
  | httpError (detail : Option String)
  | networkError (msg : Option String)
deriving Repr, DecidableEq

/-- The message of the error thrown on a non-2xx response:
`new Error(err.detail || 'Import failed')`.  JavaScript `||` takes the
right operand when `detail` is absent or an empty (falsy) string. -/
def submitFailText : Option String → String
  | some d => if d = "" then "Import failed" else d
  | none => "Import failed"

/-- `handleSubmit` from `src/App.tsx`: a no-op without a file or with an
empty transaction list; otherwise loading is set, error and result cleared,
and the settled outcome applied. -/
def handleSubmit (s : UploadState) (outcome : SubmitOutcome) : UploadState :=
  if s.file = none ∨ s.transactions = [] then s
  else
    let s := { s with loading := true, error := none, result := none }
    match outcome with
    | .success r => { s with result := some r, loading := false }
    | .httpError detail => { s with error := some (submitFailText detail), loading := false }
    | .networkError m => { s with error := some (m.getD "Import failed"), loading := false }

/-! ## Auth controller (`src/AuthContext.tsx`)

`localStorage` access is modelled as a trace of explicit storage operations
emitted by each handler, applied to a record of the three keys the
controller uses.  The user profile carried in the `user` callback parameter
is JSON; `JSON.parse` is a platform builtin, modelled here for the flat
string-field objects the OAuth server sends (anything else models a thrown
`SyntaxError`, i.e. `none`). -/

/-- A parsed user-profile JSON value: a flat object of string fields
(e.g. email / name / picture).  The code stores whatever `JSON.parse`
returns without validating its shape. -/
abbrev UserData := List (String × String)

/-- Parse one JSON string literal (no escape sequences, which the modelled
profiles do not contain), returning the content and the remaining input. -/
def parseStrLit : List Char → Option (String × List Char)
  | '"' :: rest =>
    match rest.dropWhile (fun c => ¬ c = '"') with
    | '"' :: rem => some (⟨rest.takeWhile (fun c => ¬ c = '"')⟩, rem)
    | _ => none
  | _ => none

/-- Parse a nonempty comma-separated sequence of `"key":"value"` pairs. -/
def parsePairs (fuel : Nat) (cs : List Char) : Option (UserData × List Char) :=
  match fuel with
  | 0 => none
  | fuel + 1 =>
    match parseStrLit cs with
    | none => none
    | some (k, rest) =>
      match rest with
      | ':' :: rest2 =>
        match parseStrLit rest2 with
        | none => none
        | some (v, rest3) =>
          match rest3 with
          | ',' :: rest4 =>
            match parsePairs fuel rest4 with
            | some (ps, rem) => some ((k, v) :: ps, rem)
            | none => none
          | _ => some ([(k, v)], rest3)
      | _ => none

/-- Model of `JSON.parse` restricted to flat objects of string fields;
`none` models a thrown `SyntaxError`. -/
def jsonParseFlat (s : String) : Option UserData :=
  match s.data with
  | '{' :: rest =>
    match rest with
    | '}' :: rem => if rem.isEmpty then some [] else none
    | _ =>
      match parsePairs (rest.length + 1) rest with
      | some (ps, '}' :: rem) => if rem.isEmpty then some ps else none
      | _ => none
  | _ => none

/-- Serialize the fields of a flat object, comma separated. -/
def jsonFieldsStr : UserData → String
  | [] => ""
  | [p] => "\"" ++ p.1 ++ "\":\"" ++ p.2 ++ "\""
  | p :: rest => "\"" ++ p.1 ++ "\":\"" ++ p.2 ++ "\"" ++ "," ++ jsonFieldsStr rest

/-- Model of `JSON.stringify` on the flat objects above. -/
def jsonStringifyFlat (u : UserData) : String :=
  "\x7b" ++ jsonFieldsStr u ++ "\x7d"

/-- One `localStorage` call. -/
inductive StorageOp where
  | set (key : String) (value : String)
  | remove (key : String)
deriving Repr, DecidableEq

/-- The key a storage operation touches. -/
def opKey : StorageOp → String
  | .set k _ => k
  | .remove k => k

/-- The three persisted keys, as a record of current values. -/
structure Storage where
  access_token : Option String
  user_info : Option String
  token_expiry : Option String
deriving Repr, DecidableEq

/-- Apply one storage operation to the three tracked keys (operations on
other keys, which the controller never emits, leave the record unchanged). -/
def applyOp (st : Storage) : StorageOp → Storage
  | .set k v =>
    if k = "google_access_token" then { st with access_token := some v }
    else if k = "google_user_info" then { st with user_info := some v }
    else if k = "google_token_expiry" then { st with token_expiry := some v }
    else st
  | .remove k =>
    if k = "google_access_token" then { st with access_token := none }
    else if k = "google_user_info" then { st with user_info := none }
    else if k = "google_token_expiry" then { st with token_expiry := none }
    else st

/-- Apply a trace of storage operations in order. -/
def applyOps (st : Storage) (ops : List StorageOp) : Storage :=
  ops.foldl applyOp st

/-- The three removals emitted together by sign-out and by a failed session
restore. -/
def removeAllOps : List StorageOp :=
  [StorageOp.remove "google_access_token", StorageOp.remove "google_user_info",
   StorageOp.remove "google_token_expiry"]

/-- In-memory auth controller state: the `user` and `isLoading` React state. -/
structure AuthState where
  user : Option UserData
  isLoading : Bool
deriving Repr, DecidableEq

/-- The OAuth callback query parameters read by the controller; `none` means
the parameter is absent from the URL. -/
structure CallbackParams where
  access_token : Option String
  expiry : Option String
  user : Option String
  refresh_token : Option String
deriving Repr, DecidableEq

/-- `handleOAuthCallback` from `src/AuthContext.tsx`.  A missing (or falsy
empty-string) access token or user parameter throws, which is caught: no
storage operation is emitted and only `isLoading` changes.  Otherwise the
user JSON is parsed (a parse failure is likewise caught), the token and the
re-stringified profile are stored, the expiry is stored only when present
and truthy, and the in-memory user is set. -/
def handleOAuthCallback (st : AuthState) (p : CallbackParams) : AuthState × List StorageOp :=
  match p.access_token, p.user with
  | some tok, some uj =>
    if tok.data = [] ∨ uj.data = [] then ({ st with isLoading := false }, [])
    else
      match jsonParseFlat uj with
      | none => ({ st with isLoading := false }, [])
      | some userData =>
        ({ user := some userData, isLoading := false },
         [StorageOp.set "google_access_token" tok,
          StorageOp.set "google_user_info" (jsonStringifyFlat userData)] ++
         (match p.expiry with
          | some e => if e.data = [] then [] else [StorageOp.set "google_token_expiry" e]
          | none => []))
  | _, _ => ({ st with isLoading := false }, [])

/-- `signOut` from `src/AuthContext.tsx`: remove the three keys, clear the
in-memory user. -/
def signOut (st : AuthState) : AuthState × List StorageOp :=
  ({ st with user := none }, removeAllOps)

/-- How the token-introspection `fetch` settles during session restore. -/
inductive IntrospectionOutcome where
  | httpOk
  | httpFail
  | netError
deriving Repr, DecidableEq

/-- `checkAuth` from `src/AuthContext.tsx` (session restore on mount): with
both a token and a stored profile present (and truthy), a successful
introspection restores the stored profile (a `JSON.parse` throw being caught
like any other failure), while a non-2xx response or a network error removes
all three keys; without a stored token or profile nothing happens beyond
`isLoading` clearing. -/
def checkAuth (st : AuthState) (storage : Storage) (outcome : IntrospectionOutcome) :
    AuthState × List StorageOp :=
  match storage.access_token, storage.user_info with
  | some token, some userInfo =>
    if token.data = [] ∨ userInfo.data = [] then ({ st with isLoading := false }, [])
    else
      match outcome with
      | .httpOk =>
        match jsonParseFlat userInfo with
        | some u => ({ user := some u, isLoading := false }, [])
        | none => ({ st with isLoading := false }, removeAllOps)
      | .httpFail => ({ st with isLoading := false }, removeAllOps)
      | .netError => ({ st with isLoading := false }, removeAllOps)
  | _, _ => ({ st with isLoading := false }, [])

/-! ## Helper lemmas -/

/-- The push-loop of `parseCSV` computes `filterMap` of the per-row function,
appended after the accumulator. -/
theorem parseLoop_eq_filterMap (di ni ai : Nat) (rows : List (List Char))
    (acc : List Transaction) :
    parseLoop di ni ai rows acc = acc ++ rows.filterMap (txnOfRow di ni ai) := by
  induction rows generalizing acc with
  | nil => simp [parseLoop]
  | cons line rest ih =>
    simp only [parseLoop, List.filterMap_cons, txnOfRow]
    cases h : jsParseFloatU (splitLine line)[ai]? with
    | none => simp [ih]
    | some amt =>
      by_cases hneg : amt < 0
      · simp [hneg, ih]
      · simp [hneg, ih]

/-- When the three header lookups succeed, `parseCSV` returns exactly the
filtered data rows (this also covers the fewer-than-two-lines early return,
where there are no data rows). -/
theorem parseCSV_ok_of_headers (text : String) (di ni ai : Nat)
    (hd : headerIdx (headersOf text) "date" = some di)
    (hn : headerIdx (headersOf text) "name" = some ni)
    (ha : headerIdx (headersOf text) "amount" = some ai) :
    parseCSV text = .ok (((linesOf text).drop 1).filterMap (txnOfRow di ni ai)) := by
  simp only [parseCSV]
  by_cases h2 : (linesOf text).length < 2
  · have hdrop : (linesOf text).drop 1 = [] := List.drop_eq_nil_of_le (by omega)
    rw [if_pos h2, hdrop]
    simp
  · rw [if_neg h2]
    simp only [headersOf] at hd hn ha
    rw [hd, hn, ha]
    simp [parseLoop_eq_filterMap]

/-- With at least two lines, `parseCSV` throws exactly when one of the three
header lookups fails. -/
theorem parseCSV_error_iff (text : String) (h2 : 2 ≤ (linesOf text).length) :
    parseCSV text = .error "CSV must have Date, Name, and Amount columns" ↔
      (headerIdx (headersOf text) "date" = none ∨ headerIdx (headersOf text) "name" = none ∨
       headerIdx (headersOf text) "amount" = none) := by
  unfold parseCSV
  have hlt : ¬ (linesOf text).length < 2 := by omega
  simp only [headersOf] at *
  cases hd : headerIdx (splitLine ((linesOf text).headD [])) "date" <;>
    cases hn : headerIdx (splitLine ((linesOf text).headD [])) "name" <;>
      cases ha : headerIdx (splitLine ((linesOf text).headD [])) "amount" <;>
        simp [hlt, hd, hn, ha]

/-- Any thrown `parseCSV` error is the missing-header error, and it occurs
only with at least two lines and a failed header lookup. -/
theorem parseCSV_error_inv (text : String) (msg : String)
    (h : parseCSV text = .error msg) :
    msg = "CSV must have Date, Name, and Amount columns" ∧
    2 ≤ (linesOf text).length ∧
    (headerIdx (headersOf text) "date" = none ∨ headerIdx (headersOf text) "name" = none ∨
     headerIdx (headersOf text) "amount" = none) := by
  unfold parseCSV at h
  by_cases h2 : (linesOf text).length < 2
  · simp [h2] at h
  · rw [if_neg h2] at h
    refine ⟨?_, by omega, ?_⟩ <;>
    · revert h
      simp only [headersOf]
      cases hd : headerIdx (splitLine ((linesOf text).headD [])) "date" <;>
        cases hn : headerIdx (splitLine ((linesOf text).headD [])) "name" <;>
          cases ha : headerIdx (splitLine ((linesOf text).headD [])) "amount" <;>
            simp [hd, hn, ha] <;> intro h <;> simp [h]

/-- `jsSplit` never returns the empty list. -/
theorem jsSplit_ne_nil (sep : Char) (cs : List Char) : jsSplit sep cs ≠ [] := by
  cases cs with
  | nil => simp [jsSplit]
  | cons c cs =>
    simp only [jsSplit]
    by_cases h : c = sep
    · simp [h]
    · simp only [h, if_false]
      split <;> simp

/-- The number of fields `jsSplit` produces is the separator count plus one. -/
theorem jsSplit_length (sep : Char) (cs : List Char) :
    (jsSplit sep cs).length = cs.count sep + 1 := by
  induction cs with
  | nil => simp [jsSplit]
  | cons c cs ih =>
    by_cases h : c = sep
    · simp [jsSplit, h, List.count_cons, ih]
    · cases hr : jsSplit sep cs with
      | nil => exact absurd hr (jsSplit_ne_nil sep cs)
      | cons f rest =>
        have hb : (c == sep) = false := by simp [h]
        simp [jsSplit, h, hr, List.count_cons, hb] at ih ⊢
        omega

/-- Trimming only drops characters. -/
theorem jsTrim_sublist (cs : List Char) : (jsTrim cs).Sublist cs := by
  unfold jsTrim
  have h1 : (cs.dropWhile Char.isWhitespace).Sublist cs := List.dropWhile_sublist _
  have h2 : ((cs.dropWhile Char.isWhitespace).reverse.dropWhile Char.isWhitespace).Sublist
      (cs.dropWhile Char.isWhitespace).reverse := List.dropWhile_sublist _
  have h3 : (((cs.dropWhile Char.isWhitespace).reverse.dropWhile
      Char.isWhitespace).reverse).Sublist (cs.dropWhile Char.isWhitespace) := by
    simpa using List.reverse_sublist.mpr h2
  exact h3.trans h1

/-- Trimming cannot increase the count of any character. -/
theorem jsTrim_count_le (cs : List Char) (a : Char) :
    (jsTrim cs).count a ≤ cs.count a :=
  (jsTrim_sublist cs).count_le a

/-- Every cleaned field is free of double quotes. -/
theorem mem_splitLine_no_quote (line : List Char) (s : String) (h : s ∈ splitLine line) :
    '"' ∉ s.data := by
  simp only [splitLine, List.mem_map] at h
  obtain ⟨f, _, rfl⟩ := h
  simp [cleanField, removeQuotes, List.mem_filter]

/-- The fields of a retained transaction are the indexed cleaned columns of
its row. -/
theorem txnOfRow_fields (di ni ai : Nat) (line : List Char) (t : Transaction)
    (h : txnOfRow di ni ai line = some t) :
    t.date = (splitLine line)[di]? ∧ t.name = (splitLine line)[ni]? ∧
    t.amount < 0 ∧ jsParseFloatU (splitLine line)[ai]? = some t.amount := by
  revert h
  simp only [txnOfRow]
  cases hp : jsParseFloatU (splitLine line)[ai]? with
  | none => simp
  | some amt =>
    by_cases hneg : amt < 0
    · simp only [hneg, if_true, Option.some.injEq]
      intro h
      subst h
      simp [hneg]
    · simp [hneg]

/-- A row whose amount column does not exist is never retained. -/
theorem txnOfRow_none_of_short (di ni ai : Nat) (line : List Char)
    (h : (splitLine line).length ≤ ai) : txnOfRow di ni ai line = none := by
  simp [txnOfRow, List.getElem?_eq_none h, jsParseFloatU]

/-- Inversion for a successful parse: either there were no data rows at all,
or the header lookup succeeded and the result is the filtered data rows. -/
theorem parseCSV_ok_inv (text : String) (ts : List Transaction)
    (hok : parseCSV text = .ok ts) :
    ts = [] ∨ ∃ di ni ai,
      headerIdx (headersOf text) "date" = some di ∧
      headerIdx (headersOf text) "name" = some ni ∧
      headerIdx (headersOf text) "amount" = some ai ∧
      ts = ((linesOf text).drop 1).filterMap (txnOfRow di ni ai) := by
  simp only [parseCSV] at hok
  by_cases h2 : (linesOf text).length < 2
  · rw [if_pos h2] at hok
    simp only [ParseResult.ok.injEq] at hok
    exact Or.inl hok.symm
  · rw [if_neg h2] at hok
    cases hd : headerIdx (splitLine ((linesOf text).headD [])) "date" with
    | none => rw [hd] at hok; simp at hok
    | some di =>
      cases hn : headerIdx (splitLine ((linesOf text).headD [])) "name" with
      | none => rw [hd, hn] at hok; simp at hok
      | some ni =>
        cases ha : headerIdx (splitLine ((linesOf text).headD [])) "amount" with
        | none => rw [hd, hn, ha] at hok; simp at hok
        | some ai =>
          rw [hd, hn, ha] at hok
          simp only [ParseResult.ok.injEq] at hok
          refine Or.inr ⟨di, ni, ai, hd, hn, ha, ?_⟩
          rw [← hok, parseLoop_eq_filterMap, List.nil_append]

/-- Every transaction returned by `parseCSV` arises from one data row via
`txnOfRow`, with the column indices the header lookup produced. -/
theorem mem_of_parseCSV_ok (text : String) (ts : List Transaction) (t : Transaction)
    (hok : parseCSV text = .ok ts) (hmem : t ∈ ts) :
    ∃ di ni ai line, line ∈ (linesOf text).drop 1 ∧ txnOfRow di ni ai line = some t := by
  rcases parseCSV_ok_inv text ts hok with hnil | ⟨di, ni, ai, _, _, _, hts⟩
  · subst hnil; simp at hmem
  · subst hts
    rw [List.mem_filterMap] at hmem
    obtain ⟨line, hline, hrow⟩ := hmem
    exact ⟨di, ni, ai, line, hline, hrow⟩

/-- The storage trace of a session restore is empty or the three removals. -/
theorem checkAuth_trace (st : AuthState) (storage : Storage)
    (outcome : IntrospectionOutcome) :
    (checkAuth st storage outcome).2 = [] ∨ (checkAuth st storage outcome).2 = removeAllOps := by
  unfold checkAuth
  cases storage.access_token with
  | none => simp
  | some token =>
    cases storage.user_info with
    | none => simp
    | some userInfo =>
      by_cases hempty : token.data = [] ∨ userInfo.data = []
      · simp [hempty]
      · cases outcome with
        | httpOk =>
          cases hj : jsonParseFlat userInfo <;> simp [hempty, hj]
        | httpFail => simp [hempty]
        | netError => simp [hempty]

/-- The storage trace of an OAuth callback is empty, the token + profile
writes, or those two writes followed by the expiry write. -/
theorem oauthCallback_trace (st : AuthState) (p : CallbackParams) :
    (handleOAuthCallback st p).2.map opKey = [] ∨
    (handleOAuthCallback st p).2.map opKey = ["google_access_token", "google_user_info"] ∨
    (handleOAuthCallback st p).2.map opKey =
      ["google_access_token", "google_user_info", "google_token_expiry"] := by
  unfold handleOAuthCallback
  cases p.access_token with
  | none => simp
  | some tok =>
    cases p.user with
    | none => simp
    | some uj =>
      by_cases hempty : tok.data = [] ∨ uj.data = []
      · simp [hempty]
      · cases hj : jsonParseFlat uj with
        | none => simp [hempty, hj]
        | some userData =>
          cases hexp : p.expiry with
          | none => simp [hempty, hj, hexp, opKey]
          | some e =>
            by_cases he : e.data = []
            · simp [hempty, hj, hexp, he, opKey]
            · simp [hempty, hj, hexp, he, opKey]

/-- A row is dropped exactly when its amount column is `NaN` (missing or
non-numeric) or parses to a non-negative value. -/
theorem txnOfRow_none_iff (di ni ai : Nat) (line : List Char) :
    txnOfRow di ni ai line = none ↔
      (jsParseFloatU (splitLine line)[ai]? = none ∨
       ∃ a, jsParseFloatU (splitLine line)[ai]? = some a ∧ ¬ a < 0) := by
  simp only [txnOfRow]
  cases hp : jsParseFloatU (splitLine line)[ai]? with
  | none => simp
  | some amt =>
    by_cases hneg : amt < 0
    · simp [hneg]
    · simp [hneg]
      exact le_of_not_lt hneg

/-! ## Concrete inputs used in witnesses and counterexamples -/

/-- The parser scenario input from the specification. -/
def csvScenario : String :=
  "Date,Name,Amount\n01/01/2024,Coffee Shop,-4.50\n01/02/2024,Paycheck,1500.00"

/-- First data row of the scenario input. -/
def csvScenarioRow1 : List Char := "01/01/2024,Coffee Shop,-4.50".data

/-- Second data row of the scenario input. -/
def csvScenarioRow2 : List Char := "01/02/2024,Paycheck,1500.00".data

/-- An input whose name field carries an embedded double quote. -/
def quoteText : String := "Date,Name,Amount\nd,a\"b,-1"

/-- The data row of `quoteText`. -/
def quoteRow : List Char := "d,a\"b,-1".data

/-- A small valid input for instantiating universally quantified theorems. -/
def sampleText : String := "Date,Name,Amount\na,b,-1\nc,d,2"

theorem jsParseFloat_neg450 : jsParseFloat "-4.50" = some (-4.50) := by
  simp [jsParseFloat, digitsToNat]
  norm_num

theorem jsParseFloat_1500 : jsParseFloat "1500.00" = some 1500 := by
  simp [jsParseFloat, digitsToNat]
  norm_num

theorem jsParseFloat_neg1 : jsParseFloat "-1" = some (-1) := by
  simp [jsParseFloat, digitsToNat]

theorem txn_csvScenarioRow1 : txnOfRow 0 1 2 csvScenarioRow1 =
    some ⟨some "01/01/2024", some "Coffee Shop", -4.50⟩ := by
  have hcols : splitLine csvScenarioRow1 = ["01/01/2024", "Coffee Shop", "-4.50"] := by decide
  simp [txnOfRow, hcols, jsParseFloatU, jsParseFloat_neg450]
  norm_num

theorem txn_csvScenarioRow2 : txnOfRow 0 1 2 csvScenarioRow2 = none := by
  have hcols : splitLine csvScenarioRow2 = ["01/02/2024", "Paycheck", "1500.00"] := by decide
  simp [txnOfRow, hcols, jsParseFloatU, jsParseFloat_1500]

theorem csvScenario_eval : parseCSV csvScenario =
    .ok [⟨some "01/01/2024", some "Coffee Shop", -4.50⟩] := by
  have hlines : (linesOf csvScenario).drop 1 = [csvScenarioRow1, csvScenarioRow2] := by decide
  rw [parseCSV_ok_of_headers csvScenario 0 1 2 (by decide) (by decide) (by decide), hlines]
  simp only [List.filterMap_cons, List.filterMap_nil, txn_csvScenarioRow1, txn_csvScenarioRow2]

theorem txn_quoteRow : txnOfRow 0 1 2 quoteRow = some ⟨some "d", some "ab", -1⟩ := by
  have hcols : splitLine quoteRow = ["d", "ab", "-1"] := by decide
  simp [txnOfRow, hcols, jsParseFloatU, jsParseFloat_neg1]

theorem quoteText_eval : parseCSV quoteText = .ok [⟨some "d", some "ab", -1⟩] := by
  have hlines : (linesOf quoteText).drop 1 = [quoteRow] := by decide
  rw [parseCSV_ok_of_headers quoteText 0 1 2 (by decide) (by decide) (by decide), hlines]
  simp only [List.filterMap_cons, List.filterMap_nil, txn_quoteRow]

/-- An upload state holding transactions parsed from an earlier valid file. -/
def priorUploadState : UploadState :=
  { file := some ⟨"old.csv", "Date,Name,Amount\na,b,-1"⟩,
    transactions := [⟨some "a", some "b", -1⟩],
    error := none, loading := false, result := none }

/-- OAuth callback parameters with a token and profile but no expiry. -/
def cbNoExpiry : CallbackParams :=
  ⟨some "tok", none, some "\x7b\"email\":\"a@b.c\"\x7d", none⟩

/-! ## Claims -/

/-- C1: for every input text whose header lookup resolves the three column
positions, parseCSV returns exactly the data rows whose amount field parses
to a strictly negative number, in the original row order (`filterMap`
preserves order and never reorders); a row is excluded exactly when its
amount is `NaN` (non-numeric or missing) or non-negative. -/
theorem parseCSV_keeps_exactly_negative_rows_in_order (text : String) (di ni ai : Nat)
    (hd : headerIdx (headersOf text) "date" = some di)
    (hn : headerIdx (headersOf text) "name" = some ni)
    (ha : headerIdx (headersOf text) "amount" = some ai) :
    parseCSV text = .ok (((linesOf text).drop 1).filterMap (txnOfRow di ni ai)) ∧
    (∀ line t, txnOfRow di ni ai line = some t →
      t.amount < 0 ∧ jsParseFloatU (splitLine line)[ai]? = some t.amount ∧
      t.date = (splitLine line)[di]? ∧ t.name = (splitLine line)[ni]?) ∧
    (∀ line, txnOfRow di ni ai line = none ↔
      (jsParseFloatU (splitLine line)[ai]? = none ∨
       ∃ a, jsParseFloatU (splitLine line)[ai]? = some a ∧ ¬ a < 0)) := by
  refine ⟨parseCSV_ok_of_headers text di ni ai hd hn ha, ?_, fun line => txnOfRow_none_iff _ _ _ _⟩
  intro line t hrow
  obtain ⟨hdate, hname, hneg, hamt⟩ := txnOfRow_fields di ni ai line t hrow
  exact ⟨hneg, hamt, hdate, hname⟩

/-- C1 witness: the theorem instantiated at a concrete two-row input. -/
theorem parseCSV_keeps_exactly_negative_rows_in_order_witness :
    headerIdx (headersOf sampleText) "date" = some 0 ∧
    parseCSV sampleText = .ok (((linesOf sampleText).drop 1).filterMap (txnOfRow 0 1 2)) :=
  ⟨by decide,
   (parseCSV_keeps_exactly_negative_rows_in_order sampleText 0 1 2
     (by decide) (by decide) (by decide)).1⟩

/-- C2 counterexample: the one-line input `"Foo,Bar"` has a header row (its
only line) lacking all three required names, yet parseCSV returns the empty
sequence instead of failing: the claim is false without a
two-or-more-lines precondition. -/
theorem parseCSV_missing_header_counterexample :
    headerIdx (headersOf "Foo,Bar") "date" = none ∧
    headerIdx (headersOf "Foo,Bar") "name" = none ∧
    headerIdx (headersOf "Foo,Bar") "amount" = none ∧
    parseCSV "Foo,Bar" = .ok [] := by decide

/-- C2 (amended with the two-line precondition): for input that splits into
at least two lines after trimming, parseCSV throws the missing-header error
exactly when one of the three case-insensitive header lookups fails, and any
error it ever throws is that one; position is resolved by header lookup, so
column order is irrelevant. -/
theorem parseCSV_missing_header_errors (text : String)
    (h2 : 2 ≤ (linesOf text).length) :
    (parseCSV text = .error "CSV must have Date, Name, and Amount columns" ↔
      (headerIdx (headersOf text) "date" = none ∨ headerIdx (headersOf text) "name" = none ∨
       headerIdx (headersOf text) "amount" = none)) ∧
    (∀ msg, parseCSV text = .error msg →
      msg = "CSV must have Date, Name, and Amount columns") :=
  ⟨parseCSV_error_iff text h2, fun msg h => (parseCSV_error_inv text msg h).1⟩

/-- C2 witness: a two-line input without a Date header makes parseCSV throw. -/
theorem parseCSV_missing_header_errors_witness :
    parseCSV "Foo,Bar\nx,y" = .error "CSV must have Date, Name, and Amount columns" :=
  (parseCSV_missing_header_errors "Foo,Bar\nx,y" (by decide)).1.mpr (Or.inl (by decide))

/-- C3: on the specification scenario input, parseCSV returns exactly one
transaction, `{date := "01/01/2024", name := "Coffee Shop", amount := -4.50}`
(the positive-amount Paycheck row is excluded). -/
theorem parseCSV_scenario_single_purchase :
    parseCSV "Date,Name,Amount\n01/01/2024,Coffee Shop,-4.50\n01/02/2024,Paycheck,1500.00" =
      .ok [⟨some "01/01/2024", some "Coffee Shop", -4.50⟩] :=
  csvScenario_eval

/-- C4 counterexample: in the row `d,a"b,-1` the double quote embedded in the
middle of the name field is removed, not preserved: the parsed name is
`"ab"`, not `a"b`, because the code replaces every quote globally. -/
theorem embedded_quote_removed_counterexample :
    parseCSV quoteText = .ok [⟨some "d", some "ab", -1⟩] ∧
    ("ab" : String) ≠ "a\"b" :=
  ⟨quoteText_eval, by decide⟩

/-- C4 (amended): every field of the header row and of every data row is
obtained by splitting the line on comma, trimming surrounding whitespace and
removing every double-quote character, embedded ones included; consequently
no double quote survives into any parsed transaction field. -/
theorem fields_are_split_trimmed_dequoted (text : String) (ts : List Transaction)
    (hok : parseCSV text = .ok ts) :
    (∀ line : List Char, splitLine line =
      (jsSplit ',' line).map (fun f => ⟨(jsTrim f).filter (fun c => ¬ c = '"')⟩)) ∧
    ∀ t ∈ ts, (∀ s, t.date = some s → '"' ∉ s.data) ∧
      (∀ s, t.name = some s → '"' ∉ s.data) := by
  refine ⟨fun line => rfl, fun t hmem => ?_⟩
  obtain ⟨di, ni, ai, line, hline, hrow⟩ := mem_of_parseCSV_ok text ts t hok hmem
  obtain ⟨hdate, hname, -, -⟩ := txnOfRow_fields di ni ai line t hrow
  constructor
  · intro s hs
    rw [hdate] at hs
    exact mem_splitLine_no_quote line s (List.getElem?_mem hs)
  · intro s hs
    rw [hname] at hs
    exact mem_splitLine_no_quote line s (List.getElem?_mem hs)

/-- C4 witness: applied to the parsed quote-bearing input, the name field of
the resulting transaction contains no double quote. -/
theorem fields_are_split_trimmed_dequoted_witness :
    '"' ∉ ("ab" : String).data :=
  ((fields_are_split_trimmed_dequoted quoteText [⟨some "d", some "ab", -1⟩]
      quoteText_eval).2 ⟨some "d", some "ab", -1⟩ (by simp)).2 "ab" rfl

/-- C5: any input that splits into fewer than two lines on newline yields the
empty sequence and never an error, even with no valid header present
(trimming first can only reduce the number of lines). -/
theorem parseCSV_short_input_empty (text : String)
    (h : (jsSplit '\n' text.data).length < 2) :
    parseCSV text = .ok [] := by
  have hcount : text.data.count '\n' = 0 := by
    have := jsSplit_length '\n' text.data
    omega
  have htrim : (jsTrim text.data).count '\n' = 0 :=
    Nat.le_zero.mp (hcount ▸ jsTrim_count_le text.data '\n')
  have hlen : (linesOf text).length < 2 := by
    simp only [linesOf]
    rw [jsSplit_length, htrim]
    omega
  simp only [parseCSV]
  rw [if_pos hlen]

/-- C5 witness: a headerless single-line input returns the empty sequence. -/
theorem parseCSV_short_input_empty_witness :
    parseCSV "abc" = .ok [] :=
  parseCSV_short_input_empty "abc" (by decide)

/-- C6 counterexample: selecting `statement.txt` from a state holding
previously parsed transactions sets the error text but leaves the
transaction list non-empty: the claimed clearing does not happen. -/
theorem bad_extension_keeps_transactions_counterexample :
    (handleFile priorUploadState ⟨"statement.txt", ""⟩).error =
      some "Please upload a CSV file" ∧
    (handleFile priorUploadState ⟨"statement.txt", ""⟩).transactions =
      [⟨some "a", some "b", -1⟩] ∧
    (handleFile priorUploadState ⟨"statement.txt", ""⟩).transactions ≠ [] := by decide

/-- C6 (amended): a file whose name does not end in `.csv` (case-sensitive)
only sets the user-visible error text; the previously selected file,
transactions, result and loading flag are all left unchanged, so the
transaction list is empty afterwards only if it was empty before (as in the
fresh-state scenario of the specification). -/
theorem handleFile_bad_extension_sets_error_only (s : UploadState) (f : FileModel)
    (h : jsEndsWith f.name ".csv" = false) :
    handleFile s f = { s with error := some "Please upload a CSV file" } := by
  simp [handleFile, h]

/-- C6 witness: from the initial state, selecting `statement.txt` leaves the
transaction list empty and sets the error. -/
theorem handleFile_bad_extension_sets_error_only_witness :
    handleFile initialUploadState ⟨"statement.txt", ""⟩ =
      { initialUploadState with error := some "Please upload a CSV file" } :=
  handleFile_bad_extension_sets_error_only initialUploadState ⟨"statement.txt", ""⟩ (by decide)

/-- C7 counterexample: a non-2xx response whose JSON body contains the detail
field with the empty string yields the generic text, not that string:
JavaScript `||` treats the empty string as falsy. -/
theorem empty_detail_counterexample :
    (handleSubmit priorUploadState (.httpError (some ""))).error = some "Import failed" ∧
    ("Import failed" : String) ≠ "" := by decide

/-- C7 (amended): on a non-2xx response, a non-empty detail string in the
JSON body becomes the user-visible error text verbatim; an absent or empty
detail yields the generic "Import failed"; in particular HTTP 500 with body
detail "duplicate rows" yields exactly "duplicate rows". -/
theorem handleSubmit_non2xx_error_text (s : UploadState) (d : Option String)
    (hf : s.file ≠ none) (ht : s.transactions ≠ []) :
    (∀ m, d = some m → m ≠ "" → (handleSubmit s (.httpError d)).error = some m) ∧
    ((d = none ∨ d = some "") →
      (handleSubmit s (.httpError d)).error = some "Import failed") ∧
    (handleSubmit s (.httpError (some "duplicate rows"))).error = some "duplicate rows" ∧
    (handleSubmit s (.httpError d)).result = none ∧
    (handleSubmit s (.httpError d)).loading = false := by
  have hguard : ¬ (s.file = none ∨ s.transactions = []) := by
    rintro (h | h)
    · exact hf h
    · exact ht h
  refine ⟨?_, ?_, ?_, ?_, ?_⟩
  · rintro m rfl hm
    simp [handleSubmit, hguard, submitFailText, hm]
  · rintro (rfl | rfl) <;> simp [handleSubmit, hguard, submitFailText]
  · simp [handleSubmit, hguard, submitFailText]
  · simp [handleSubmit, hguard]
  · simp [handleSubmit, hguard]

/-- C7 witness: the specification scenario, HTTP 500 with detail
"duplicate rows". -/
theorem handleSubmit_non2xx_error_text_witness :
    (handleSubmit priorUploadState (.httpError (some "duplicate rows"))).error =
      some "duplicate rows" :=
  (handleSubmit_non2xx_error_text priorUploadState (some "duplicate rows")
    (by decide) (by decide)).2.2.1

/-- C8: an OAuth callback carrying an access token but no user parameter
leaves the in-memory user null (the controller stays unauthenticated) and
emits no storage operation, so none of the three persisted keys is written. -/
theorem oauth_callback_missing_user_data (st : AuthState) (p : CallbackParams) (tok : String)
    (ha : p.access_token = some tok) (hu : p.user = none) (hnull : st.user = none) :
    (handleOAuthCallback st p).1.user = none ∧
    (handleOAuthCallback st p).2 = [] ∧
    ∀ storage, applyOps storage (handleOAuthCallback st p).2 = storage := by
  have hcb : handleOAuthCallback st p = ({ st with isLoading := false }, []) := by
    unfold handleOAuthCallback
    rw [ha, hu]
  rw [hcb]
  exact ⟨hnull, rfl, fun storage => rfl⟩

/-- C8 witness: the theorem at a concrete callback with only an access
token. -/
theorem oauth_callback_missing_user_data_witness :
    (handleOAuthCallback ⟨none, true⟩ ⟨some "tok", none, none, none⟩).1.user = none ∧
    (handleOAuthCallback ⟨none, true⟩ ⟨some "tok", none, none, none⟩).2 = [] ∧
    ∀ storage, applyOps storage (handleOAuthCallback ⟨none, true⟩
      ⟨some "tok", none, none, none⟩).2 = storage :=
  oauth_callback_missing_user_data ⟨none, true⟩ ⟨some "tok", none, none, none⟩ "tok"
    rfl rfl rfl

/-- C9 counterexample: a successful OAuth callback without an expiry
parameter writes `google_access_token` and `google_user_info` but not
`google_token_expiry` — the three keys are not written as a unit, and a
stale persisted expiry survives the write. -/
theorem storage_keys_not_unit_counterexample :
    (handleOAuthCallback ⟨none, true⟩ cbNoExpiry).2.map opKey =
      ["google_access_token", "google_user_info"] ∧
    "google_token_expiry" ∉ (handleOAuthCallback ⟨none, true⟩ cbNoExpiry).2.map opKey ∧
    (handleOAuthCallback ⟨none, true⟩ cbNoExpiry).2 ≠ [] ∧
    (applyOps ⟨none, none, some "stale"⟩
      (handleOAuthCallback ⟨none, true⟩ cbNoExpiry).2).token_expiry = some "stale" := by decide

/-- C9 (amended): the clearing operations are atomic — sign-out and a failed
session restore always remove all three keys together (a restore emits
either nothing or all three removals) — and a successful OAuth callback
always writes the token and user-info keys together, but writes the expiry
key only when the expiry parameter is present and non-empty. -/
theorem storage_keys_write_remove_discipline :
    (∀ st, (signOut st).2 = removeAllOps) ∧
    (∀ storage, applyOps storage removeAllOps = ⟨none, none, none⟩) ∧
    (∀ st storage outcome, (checkAuth st storage outcome).2 = [] ∨
      (checkAuth st storage outcome).2 = removeAllOps) ∧
    (∀ st p, (handleOAuthCallback st p).2.map opKey = [] ∨
      (handleOAuthCallback st p).2.map opKey = ["google_access_token", "google_user_info"] ∨
      (handleOAuthCallback st p).2.map opKey =
        ["google_access_token", "google_user_info", "google_token_expiry"]) :=
  ⟨fun _ => rfl, fun _ => rfl,
   fun st storage outcome => checkAuth_trace st storage outcome,
   fun st p => oauthCallback_trace st p⟩

/-- C10: with the three headers resolved, parseCSV is total over the data
rows — it returns a sequence (the only error it can ever throw, on any
input, is the missing-header one); a row too short to have an amount column
is silently excluded, and a retained row too short for the date or name
column gets an undefined (`none`) field value. -/
theorem parseCSV_total_over_rows :
    (∀ text di ni ai, headerIdx (headersOf text) "date" = some di →
      headerIdx (headersOf text) "name" = some ni →
      headerIdx (headersOf text) "amount" = some ai →
      ∃ ts, parseCSV text = .ok ts) ∧
    (∀ text msg, parseCSV text = .error msg →
      msg = "CSV must have Date, Name, and Amount columns") ∧
    (∀ di ni ai line, (splitLine line).length ≤ ai → txnOfRow di ni ai line = none) ∧
    (∀ di ni ai line t, txnOfRow di ni ai line = some t →
      ((splitLine line).length ≤ di → t.date = none) ∧
      ((splitLine line).length ≤ ni → t.name = none)) := by
  refine ⟨?_, ?_, ?_, ?_⟩
  · intro text di ni ai hd hn ha
    exact ⟨_, parseCSV_ok_of_headers text di ni ai hd hn ha⟩
  · intro text msg h
    exact (parseCSV_error_inv text msg h).1
  · intro di ni ai line h
    exact txnOfRow_none_of_short di ni ai line h
  · intro di ni ai line t hrow
    obtain ⟨hdate, hname, -, -⟩ := txnOfRow_fields di ni ai line t hrow
    constructor
    · intro hshort
      rw [hdate]
      exact List.getElem?_eq_none hshort
    · intro hshort
      rw [hname]
      exact List.getElem?_eq_none hshort

/-- C10 witness: a valid header followed by a one-column row parses without
error. -/
theorem parseCSV_total_over_rows_witness :
    ∃ ts, parseCSV "Date,Name,Amount\nx" = .ok ts :=
  parseCSV_total_over_rows.1 "Date,Name,Amount\nx" 0 1 2 (by decide) (by decide) (by decide)

end FinanceTracker
